import Mathlib

/-!
Verification development for the horizon hub data plane.

This file gives a shallow embedding, in Lean, of the parts of the
repository that the specification's claims are about:

* `pkg/hub/hub.go` — the per-connection handshake `handleConn`,
  including token validation, the `hzn:serve` capability check,
  service registration/deregistration against the control plane, and
  the active-session map bookkeeping;
* the `control` package's `Broadcaster.AdvertiseServices` fan-out and
  the `GRPCDial` pooled dialer;
* the hub's `InboundServer` (`checkValidToken`, `AddServices`,
  `AddLabeLink`).

External collaborators (the wire codec, the token library, the gRPC
stack, yamux, the control-plane client) are modelled as oracles in an
environment record: each fallible external call is represented by a
field giving its outcome, and the embedded function consumes those
outcomes exactly where the Go code makes the corresponding call.
-/

namespace Horizon

/-- Go map semantics over an association list: assignment `m[k] = v`
replaces the existing binding for `k` when present, otherwise appends
a new binding. -/
def mapInsert : List (String × Nat) → String → Nat → List (String × Nat)
  | [], k, v => [(k, v)]
  | (k', v') :: rest, k, v =>
    if k' = k then (k, v) :: rest else (k', v') :: mapInsert rest k v

/-- Go map semantics: `delete(m, k)` removes the binding for `k` (the
first one, which is the only one when the list is a well-formed map). -/
def mapDelete : List (String × Nat) → String → List (String × Nat)
  | [], _ => []
  | (k', v') :: rest, k =>
    if k' = k then rest else (k', v') :: mapDelete rest k

/-- Go map lookup `m[k]`. -/
def mapGet (m : List (String × Nat)) (k : String) : Option Nat :=
  match m with
  | [] => none
  | (k', v') :: rest => if k' = k then some v' else mapGet rest k

namespace hub

/-- Hub identity (`pb.ULID`), opaque here. -/
structure ULID where
  ulid : String
deriving DecidableEq, Repr

/-- A service identifier; `spec` is the value of `ServiceId.SpecString()`,
the key used in the hub's active-session map. -/
structure ServiceId where
  spec : String
deriving DecidableEq, Repr

/-- One advertised service descriptor from `pb.Preamble.Services`. -/
structure Service where
  serviceId : ServiceId
  type : String
  labels : List String
  metadata : List (String × String)
deriving DecidableEq, Repr

/-- `pb.Preamble`: the first frame on a new connection. -/
structure Preamble where
  token : String
  sessionId : String
  services : List Service
deriving DecidableEq, Repr

/-- The view of a validated token returned by `token.CheckTokenED25519`:
capability set plus account identity accessors. -/
structure ValidToken where
  capabilities : List String
  accountNamespace : String
  accountId : String
deriving DecidableEq, Repr

/-- `vt.HasCapability(name)`: whether the validated token carries the
named capability. -/
def ValidToken.HasCapability (vt : ValidToken) (name : String) : Bool :=
  vt.capabilities.contains name

/-- `pb.Account` as filled in by `handleConn` from the validated token. -/
structure Account where
  namespace' : String
  accountId : String
deriving DecidableEq, Repr

/-- `pb.ServiceRequest`, the payload of control-plane `AddService` and
`RemoveService` calls made by `handleConn`. -/
structure ServiceRequest where
  account : Account
  hub : ULID
  id : ServiceId
  type : String
  labels : List String
  metadata : List (String × String)
deriving DecidableEq, Repr

/-- `pb.Timestamp` carried inside the Confirmation frame. -/
structure Timestamp where
  sec : Nat
  nsec : Nat
deriving DecidableEq, Repr

/-- `pb.Confirmation`, the frame the hub writes back to the peer. -/
structure Confirmation where
  status : String
  time : Timestamp
deriving DecidableEq, Repr

/-- Environment of one inbound connection: the outcome of every
fallible external call `handleConn` makes, in program order.
`readResult` is the result of `fr.ReadMarshal(&preamble)` — `none` is
a decode error, otherwise the frame tag and the decoded Preamble.
`validateToken` is `token.CheckTokenED25519` against the hub's control
public key; `addServiceOk`/`removeServiceOk` give the control-plane
call outcomes per request; `writeConfOk` is the outcome of the
`WriteMarshal` of the "connected" Confirmation; `yamuxOk` the outcome
of `yamux.Server`. -/
structure ConnEnv where
  frOk : Bool
  readResult : Option (Nat × Preamble)
  fwOk : Bool
  validateToken : String → Option ValidToken
  addServiceOk : ServiceRequest → Bool
  removeServiceOk : ServiceRequest → Bool
  writeConfOk : Bool
  yamuxOk : Bool
  now : Timestamp

/-- Everything `handleConn` does that is observable from outside:
the Confirmation frames whose write it attempts, the control-plane
`AddService` and `RemoveService` calls in order (with each
RemoveService outcome as reported by the oracle — the code only logs
it), whether the session reached `Active`, and the active-session map
right after the session became active and after teardown. When the
handshake never reaches an insertion the two snapshots equal the
initial map. -/
structure ConnTrace where
  written : List Confirmation
  addCalls : List ServiceRequest
  removeCalls : List ServiceRequest
  removeResults : List Bool
  reachedActive : Bool
  mapAfterActive : List (String × Nat)
  mapFinal : List (String × Nat)
deriving DecidableEq, Repr

/-- Builds the `pb.ServiceRequest` that `handleConn` sends for one
advertised service (same construction for AddService and for the
deferred RemoveService). -/
def mkServiceRequest (hubId : ULID) (vt : ValidToken) (s : Service) : ServiceRequest :=
  { account := { namespace' := vt.accountNamespace, accountId := vt.accountId }
    hub := hubId
    id := s.serviceId
    type := s.type
    labels := s.labels
    metadata := s.metadata }

/-- The registration loop of `handleConn`: call `h.cc.AddService` for
each advertised service in order; on the first error, stop (the Go
code logs and returns). Returns the requests actually attempted and
whether the whole loop succeeded. -/
def registerLoop (env : ConnEnv) (hubId : ULID) (vt : ValidToken) :
    List Service → List ServiceRequest × Bool
  | [] => ([], true)
  | s :: rest =>
    let req := mkServiceRequest hubId vt s
    if env.addServiceOk req then
      let r := registerLoop env hubId vt rest
      (req :: r.1, r.2)
    else
      ([req], false)

/-- Inserting every advertised service's key into the active map,
mirroring the loop under `h.mu.Lock()` that does
`h.active[serv.ServiceId.SpecString()] = sess`. -/
def insertAll (m : List (String × Nat)) (services : List Service) (sess : Nat) :
    List (String × Nat) :=
  match services with
  | [] => m
  | s :: rest => insertAll (mapInsert m s.serviceId.spec sess) rest sess

/-- The deferred cleanup loop that does
`delete(h.active, serv.ServiceId.SpecString())` for every advertised
service. -/
def deleteAll (m : List (String × Nat)) (services : List Service) :
    List (String × Nat) :=
  match services with
  | [] => m
  | s :: rest => deleteAll (mapDelete m s.serviceId.spec) rest

/-- A trace for the paths that exit before any Confirmation write and
before any control-plane call, leaving the active map untouched. -/
def silentExit (active : List (String × Nat)) : ConnTrace :=
  { written := []
    addCalls := []
    removeCalls := []
    removeResults := []
    reachedActive := false
    mapAfterActive := active
    mapFinal := active }

/-- Shallow embedding of `Hub.handleConn` (pkg/hub/hub.go). Control
flow mirrors the Go function line by line:
frame-reader construction; `ReadMarshal` of the Preamble; the tag-1
check; frame-writer construction; token validation (failure writes a
`"bad-token"` Confirmation and returns); the `hzn:serve` capability
check when at least one service is advertised (failure writes
`"bad-token-capability"` and returns); the sequential `AddService`
registration loop (first error returns, with no Confirmation and with
the RemoveService defer not yet registered); the deferred
`RemoveService` loop over all advertised services (runs on every
later exit, its per-call errors only logged); the `WriteMarshal` of
the `"connected"` Confirmation; `yamux.Server`; the active-map insert
of every service key; and the deferred active-map delete on teardown.
The stream-accept loop that follows only spawns per-stream handlers
and always eventually returns (peer disconnect or accept error),
which triggers the deferred cleanup; per-stream handling is out of
scope, so the loop is modelled as that eventual return. -/
def handleConn (env : ConnEnv) (hubId : ULID) (sess : Nat)
    (active : List (String × Nat)) : ConnTrace :=
  if !env.frOk then silentExit active else
  match env.readResult with
  | none => silentExit active
  | some (tag, preamble) =>
    if tag ≠ 1 then silentExit active else
    if !env.fwOk then silentExit active else
    match env.validateToken preamble.token with
    | none =>
      { silentExit active with written := [⟨"bad-token", env.now⟩] }
    | some vt =>
      if preamble.services.length > 0 ∧ !vt.HasCapability "hzn:serve" then
        { silentExit active with written := [⟨"bad-token-capability", env.now⟩] }
      else
        let reg := registerLoop env hubId vt preamble.services
        if !reg.2 then
          { silentExit active with addCalls := reg.1 }
        else
          let removes := preamble.services.map (mkServiceRequest hubId vt)
          let removeResults := removes.map env.removeServiceOk
          let conf : Confirmation := ⟨"connected", env.now⟩
          if !env.writeConfOk then
            { written := [conf], addCalls := reg.1, removeCalls := removes
              removeResults := removeResults, reachedActive := false
              mapAfterActive := active, mapFinal := active }
          else if !env.yamuxOk then
            { written := [conf], addCalls := reg.1, removeCalls := removes
              removeResults := removeResults, reachedActive := false
              mapAfterActive := active, mapFinal := active }
          else
            let m1 := insertAll active preamble.services sess
            let m2 := deleteAll m1 preamble.services
            { written := [conf], addCalls := reg.1, removeCalls := removes
              removeResults := removeResults, reachedActive := true
              mapAfterActive := m1, mapFinal := m2 }

end hub

namespace control

/-- A target's `pb.HubServicesClient` as the Broadcaster sees it: the
only call made is `AddServices`, whose per-target outcome we record
(`none` for success, an error message otherwise). -/
structure HubServicesClient where
  addServicesResult : Option String
deriving DecidableEq, Repr

/-- One loop iteration result accumulated by
`Broadcaster.AdvertiseServices`: which targets had the remote
`AddServices` call invoked (i.e. observably received the update
attempt), and the per-target errors appended to the `multierror` in
iteration order. -/
def advertiseLoop (conn : String → Except String HubServicesClient) :
    List String → List String × List String
  | [] => ([], [])
  | tgt :: rest =>
    match conn tgt with
    | .error e =>
      let r := advertiseLoop conn rest
      (r.1, e :: r.2)
    | .ok client =>
      match client.addServicesResult with
      | some e =>
        let r := advertiseLoop conn rest
        (tgt :: r.1, e :: r.2)
      | none =>
        let r := advertiseLoop conn rest
        (tgt :: r.1, r.2)

/-- Shallow embedding of `Broadcaster.AdvertiseServices`: fetch the
target list from the catalog, then for each target dial via `b.conn`
and call `AddServices` on the resulting client; a dial error is
appended to the multi-error and the loop continues with the next
target; a remote-call error is likewise appended. The aggregate
`topError` is nil exactly when nothing was appended. The result is
(targets dialed, targets whose AddServices call was made, aggregate
error as the list of accumulated errors, `none` when nil). -/
def AdvertiseServices (catalogTargets : List String)
    (conn : String → Except String HubServicesClient) :
    List String × List String × Option (List String) :=
  let r := advertiseLoop conn catalogTargets
  (catalogTargets, r.1, if r.2 = [] then none else some r.2)

/-- Whether dialing a target succeeds under a given connection-opening
function. -/
def connOk (conn : String → Except String HubServicesClient) (t : String) : Bool :=
  match conn t with
  | .ok _ => true
  | .error _ => false

/-- The error one target contributes to the aggregate multi-error:
its dial error, or its remote `AddServices` error, or nothing. -/
def targetErr (conn : String → Except String HubServicesClient) (t : String) :
    Option String :=
  match conn t with
  | .error e => some e
  | .ok c => c.addServicesResult

/-- The pooled dialer `GRPCDial`: a cache of gRPC connections keyed by
target address, guarded by a reader/writer mutex. A connection is an
opaque identifier. -/
structure GRPCDial where
  token : String
  grpcConns : List (String × Nat)
deriving DecidableEq, Repr

/-- Shallow embedding of `GRPCDial.Dial` as a sequential state
transformer: look the target up under the read lock; on a hit, wrap
the cached connection in a new client stub and return. On a miss,
take the write lock and re-check (another caller may have raced); if
still missing, dial (outcome given by the `dialResult` oracle). A
dial error is returned without touching the cache; a dialed
connection is stored in `grpcConns` before being returned. The
returned `Nat` identifies the underlying connection the client stub
wraps. -/
def Dial (g : GRPCDial) (dialResult : Except String Nat) (target : String) :
    Except String Nat × GRPCDial :=
  match mapGet g.grpcConns target with
  | some cc => (.ok cc, g)
  | none =>
    match mapGet g.grpcConns target with
    | some cc => (.ok cc, g)
    | none =>
      match dialResult with
      | .error e => (.error e, g)
      | .ok cc =>
        (.ok cc, { g with grpcConns := mapInsert g.grpcConns target cc })

/-! Interleaved executions of `GRPCDial.Dial` for one fixed target.

Every step the Go code takes while holding `g.mu` (write lock) is a
single atomic action, because the mutex excludes every other locked
section; the read-locked lookup is likewise atomic with respect to
writers. A caller is therefore a two-phase process: an atomic
read-locked lookup, then — only on a miss — an atomic write-locked
section that re-checks, dials and inserts. A schedule is an arbitrary
interleaving of those atomic phases across callers. Dialing succeeds
in this model (connection identifiers come from a counter); the
failure path is covered by the sequential `Dial` above. -/

/-- Phase of one in-flight `Dial` caller: not yet started, past a
read-locked lookup that missed, or finished holding a client over
connection `res`. -/
inductive ProcState where
  | start : ProcState
  | missed : ProcState
  | done : Nat → ProcState
deriving DecidableEq, Repr

/-- Whether a caller has finished its `Dial`. -/
def ProcState.isDone : ProcState → Bool
  | .done _ => true
  | _ => false

/-- Shared pool state for one target plus the phase of every caller:
`conn` is `grpcConns[target]`, `created` the connections actually
established by `grpc.Dial` (in creation order), `nextId` the next
fresh connection identifier. -/
structure PoolSt where
  conn : Option Nat
  nextId : Nat
  created : List Nat
  procs : List ProcState
deriving DecidableEq, Repr

/-- One atomic phase of caller `p`: `read p` is the read-locked
lookup (hit finishes the caller, miss records it must take the write
lock); `write p` is the whole write-locked section (re-check, and on a
still-miss dial a fresh connection, insert it, return it). A phase
out of order — `read` of a non-started caller, `write` of a caller
that never missed — does nothing. -/
inductive Step where
  | read : Nat → Step
  | write : Nat → Step
deriving DecidableEq, Repr

/-- Executes one atomic phase on the shared state. -/
def step (s : PoolSt) : Step → PoolSt
  | .read p =>
    match s.procs[p]? with
    | some .start =>
      match s.conn with
      | some c => { s with procs := s.procs.set p (.done c) }
      | none => { s with procs := s.procs.set p .missed }
    | _ => s
  | .write p =>
    match s.procs[p]? with
    | some .missed =>
      match s.conn with
      | some c => { s with procs := s.procs.set p (.done c) }
      | none =>
        { s with
          conn := some s.nextId
          created := s.created ++ [s.nextId]
          nextId := s.nextId + 1
          procs := s.procs.set p (.done s.nextId) }
    | _ => s

/-- Runs a schedule (an arbitrary interleaving of callers' atomic
phases) from a state. -/
def run (s : PoolSt) (sched : List Step) : PoolSt :=
  sched.foldl step s

/-- The pool state before any caller has dialed the target: no cached
connection, no created connection, `n` callers about to start. -/
def initPool (n : Nat) : PoolSt :=
  { conn := none, nextId := 0, created := [], procs := List.replicate n .start }

/-- Invariant of the interleaved pool executions: while no connection
is cached, none was ever created and no caller has finished; once a
connection is cached, it is the only one ever created and every
finished caller holds exactly it. -/
def PoolInv (s : PoolSt) : Prop :=
  (s.conn = none → s.created = [] ∧ ∀ st ∈ s.procs, st.isDone = false) ∧
  (∀ c, s.conn = some c → s.created = [c] ∧
    ∀ st ∈ s.procs, ∀ r, st = ProcState.done r → r = c)

end control

namespace inbound

/-- The role carried in a token body (`pb.TokenRole`). -/
inductive Role where
  | CONTROL : Role
  | AGENT : Role
deriving DecidableEq, Repr

/-- Body of a validated control token; only the role is inspected by
`checkValidToken`. -/
structure TokenBody where
  role : Role
deriving DecidableEq, Repr

/-- The validated token returned by `token.CheckTokenED25519` in the
control-plane path. -/
structure CtrlToken where
  body : TokenBody
deriving DecidableEq, Repr

/-- The errors `checkValidToken` can return: `ErrBadControlToken`
itself, the wrap `errors.Wrapf(ErrBadControlToken, "role was: %s", r)`
for a wrong role, or the validator's own error for a bad token. -/
inductive TokenCheckError where
  | badControlToken : TokenCheckError
  | badRole : Role → TokenCheckError
  | invalidToken : String → TokenCheckError
deriving DecidableEq, Repr

/-- Incoming gRPC metadata, a map from keys to value lists; Go's
`md["authorization"]` yields the empty slice when the key is absent. -/
def mdLookup : List (String × List String) → String → List String
  | [], _ => []
  | (k, vs) :: rest, key => if k = key then vs else mdLookup rest key

/-- Environment of one inbound control-plane call: the incoming
metadata (`none` when `metadata.FromIncomingContext` reports no
metadata), the token validator outcome per token string, and the
outcomes of the two mutations the handlers can perform. -/
structure CtrlEnv where
  incomingMD : Option (List (String × List String))
  checkToken : String → Except String CtrlToken
  addRecentAccountServicesErr : Option String
  addRecentLabelLinksErr : Option String

/-- Shallow embedding of `InboundServer.checkValidToken`: require
incoming metadata; read the `authorization` entry; reject an absent or
empty entry with `ErrBadControlToken`; validate the FIRST value with
`token.CheckTokenED25519`, propagating its error; require role
`CONTROL`, otherwise return the wrapped `ErrBadControlToken`. Returns
`none` on success, `some e` on rejection. -/
def checkValidToken (env : CtrlEnv) : Option TokenCheckError :=
  match env.incomingMD with
  | none => some .badControlToken
  | some md =>
    match mdLookup md "authorization" with
    | [] => some .badControlToken
    | a :: _ =>
      match env.checkToken a with
      | .error e => some (.invalidToken e)
      | .ok tok =>
        if tok.body.role = Role.CONTROL then none
        else some (.badRole tok.body.role)

/-- An error returned by a handler: the authorization failure from
`checkValidToken`, or the error of the underlying mutation. -/
inductive CallError where
  | auth : TokenCheckError → CallError
  | mutation : String → CallError
deriving DecidableEq, Repr

/-- Shallow embedding of `InboundServer.AddServices`: check the token
(returning its error, with no mutation, on failure), then call
`Client.AddRecentAccountServices` and return its error alongside the
`Noop`. Result: (error returned to the caller, whether the mutation
was invoked). -/
def AddServices (env : CtrlEnv) : Option CallError × Bool :=
  match checkValidToken env with
  | some e => (some (.auth e), false)
  | none => (env.addRecentAccountServicesErr.map .mutation, true)

/-- Shallow embedding of `InboundServer.AddLabeLink`: check the token
(returning its error, with no mutation, on failure), then call
`Client.AddRecentLabelLinks` — whose error the Go code assigns to
`err` but then discards, returning `&pb.Noop{}, nil`. -/
def AddLabeLink (env : CtrlEnv) : Option CallError × Bool :=
  match checkValidToken env with
  | some e => (some (.auth e), false)
  | none => (none, true)

end inbound

/-! Concrete sample values used to evaluate the embedded operations on
closed inputs. -/

namespace hub

/-- A sample hub identity. -/
def hub0 : ULID := ⟨"hub-1"⟩

/-- A sample advertised service. -/
def svcA : Service := ⟨⟨"svc-a"⟩, "http", ["env=prod"], [("k", "v")]⟩

/-- A second sample advertised service with a distinct id. -/
def svcB : Service := ⟨⟨"svc-b"⟩, "tcp", [], []⟩

/-- A validated token carrying the `hzn:serve` capability. -/
def vtServe : ValidToken := ⟨["hzn:serve"], "ns", "acct"⟩

/-- A validated token without the `hzn:serve` capability. -/
def vtNoServe : ValidToken := ⟨[], "ns", "acct"⟩

/-- A Preamble advertising two distinct services. -/
def preambleAB : Preamble := ⟨"tok", "sess-1", [svcA, svcB]⟩

/-- A Preamble advertising the same service twice. -/
def preambleDup : Preamble := ⟨"tok", "sess-1", [svcA, svcA]⟩

/-- A Preamble advertising no services. -/
def preambleEmpty : Preamble := ⟨"tok", "sess-1", []⟩

/-- A connection environment in which every external call succeeds and
the Preamble advertises `svcA` and `svcB` (RemoveService calls fail,
which the code only logs). -/
def envOk : ConnEnv :=
  { frOk := true
    readResult := some (1, preambleAB)
    fwOk := true
    validateToken := fun _ => some vtServe
    addServiceOk := fun _ => true
    removeServiceOk := fun _ => false
    writeConfOk := true
    yamuxOk := true
    now := ⟨100, 5⟩ }

/-- Like `envOk` but every control-plane `AddService` call fails. -/
def envRegFail : ConnEnv := { envOk with addServiceOk := fun _ => false }

/-- Like `envOk` but `AddService` fails exactly for `svcB` (the second
advertised service). -/
def envFailSecond : ConnEnv :=
  { envOk with addServiceOk := fun r => if r.id.spec = "svc-b" then false else true }

/-- Like `envOk` but the Preamble advertises a duplicated service id. -/
def envDup : ConnEnv := { envOk with readResult := some (1, preambleDup) }

/-- Like `envOk` but token validation fails. -/
def envBadTok : ConnEnv := { envOk with validateToken := fun _ => none }

/-- Like `envOk` but the token lacks `hzn:serve`. -/
def envNoCap : ConnEnv := { envOk with validateToken := fun _ => some vtNoServe }

/-- Like `envNoCap` but with an empty services list. -/
def envEmptyNoCap : ConnEnv :=
  { envNoCap with readResult := some (1, preambleEmpty) }

end hub

namespace control

/-- A sample connection-opening function for the Broadcaster: dialing
target "b" fails, the others yield clients whose `AddServices` call
succeeds. -/
def connW : String → Except String HubServicesClient :=
  fun t => if t = "b" then .error "dial b failed" else .ok ⟨none⟩

/-- A sample interleaving of three concurrent `Dial` callers: callers
0 and 1 race through their read-locked lookups before caller 0 wins
the write lock; caller 2 starts after the connection exists. -/
def schedW : List Step := [.read 0, .read 1, .write 0, .read 2, .write 1, .write 2]

/-- A pool with an empty cache. -/
def g0 : GRPCDial := ⟨"pool-token", []⟩

end control

namespace inbound

/-- A control-role token. -/
def ctrlTok : CtrlToken := ⟨⟨.CONTROL⟩⟩

/-- A sample validator: the string "good" is a CONTROL token, "agent"
an AGENT token, anything else fails validation. -/
def checkTokW : String → Except String CtrlToken :=
  fun s =>
    if s = "good" then .ok ctrlTok
    else if s = "agent" then .ok ⟨⟨.AGENT⟩⟩
    else .error "bad signature"

/-- An inbound call whose `authorization` metadata entry carries two
values, the first being a valid CONTROL token. -/
def envMulti : CtrlEnv :=
  { incomingMD := some [("authorization", ["good", "stray"])]
    checkToken := checkTokW
    addRecentAccountServicesErr := none
    addRecentLabelLinksErr := none }

/-- An inbound call presenting a valid token of role AGENT. -/
def envAgent : CtrlEnv :=
  { envMulti with incomingMD := some [("authorization", ["agent"])] }

/-- An inbound call with a valid CONTROL token whose underlying
mutations both fail. -/
def envGood : CtrlEnv :=
  { incomingMD := some [("authorization", ["good"])]
    checkToken := checkTokW
    addRecentAccountServicesErr := some "store down"
    addRecentLabelLinksErr := some "store down" }

end inbound

/-! Helper lemmas about the Go-map association-list operations. -/

theorem mapGet_append_none (m m' : List (String × Nat)) (k : String)
    (h : mapGet m k = none) : mapGet (m ++ m') k = mapGet m' k := by
  induction m with
  | nil => rfl
  | cons hd tl ih =>
    obtain ⟨k', v'⟩ := hd
    simp only [mapGet, List.cons_append] at h ⊢
    by_cases hk : k' = k
    · simp [hk] at h
    · simp only [if_neg hk] at h ⊢
      exact ih h

theorem mapInsert_fresh (m : List (String × Nat)) (k : String) (v : Nat)
    (h : mapGet m k = none) : mapInsert m k v = m ++ [(k, v)] := by
  induction m with
  | nil => rfl
  | cons hd tl ih =>
    obtain ⟨k', v'⟩ := hd
    simp only [mapGet] at h
    by_cases hk : k' = k
    · simp [hk] at h
    · simp only [mapInsert, if_neg hk, List.cons_append, List.cons.injEq, true_and]
      exact ih (by simpa [if_neg hk] using h)

theorem mapDelete_append_head (m tl : List (String × Nat)) (k : String) (v : Nat)
    (h : mapGet m k = none) : mapDelete (m ++ (k, v) :: tl) k = m ++ tl := by
  induction m with
  | nil => simp [mapDelete]
  | cons hd tl' ih =>
    obtain ⟨k', v'⟩ := hd
    simp only [mapGet] at h
    by_cases hk : k' = k
    · simp [hk] at h
    · simp only [mapDelete, List.cons_append, if_neg hk, List.cons.injEq, true_and]
      exact ih (by simpa [if_neg hk] using h)

theorem mapGet_mapInsert_self (m : List (String × Nat)) (k : String) (v : Nat) :
    mapGet (mapInsert m k v) k = some v := by
  induction m with
  | nil => simp [mapInsert, mapGet]
  | cons hd tl ih =>
    obtain ⟨k', v'⟩ := hd
    by_cases hk : k' = k
    · simp [mapInsert, mapGet, hk]
    · simp [mapInsert, mapGet, hk, ih]

namespace hub

/-! Helper lemmas about the hub's registration loop and active-map
bookkeeping. -/

theorem registerLoop_ok (env : ConnEnv) (hubId : ULID) (vt : ValidToken)
    (l : List Service)
    (h : ∀ s ∈ l, env.addServiceOk (mkServiceRequest hubId vt s) = true) :
    registerLoop env hubId vt l = (l.map (mkServiceRequest hubId vt), true) := by
  induction l with
  | nil => rfl
  | cons s rest ih =>
    have hs := h s (List.mem_cons_self s rest)
    have hrest := ih fun s' hs' => h s' (List.mem_cons_of_mem s hs')
    simp [registerLoop, hs, hrest]

theorem registerLoop_fail (env : ConnEnv) (hubId : ULID) (vt : ValidToken)
    (l1 : List Service) (s : Service) (l2 : List Service)
    (hok : ∀ s' ∈ l1, env.addServiceOk (mkServiceRequest hubId vt s') = true)
    (hfail : env.addServiceOk (mkServiceRequest hubId vt s) = false) :
    registerLoop env hubId vt (l1 ++ s :: l2) =
      ((l1 ++ [s]).map (mkServiceRequest hubId vt), false) := by
  induction l1 with
  | nil => simp [registerLoop, hfail]
  | cons s0 rest ih =>
    have hs0 := hok s0 (List.mem_cons_self s0 rest)
    have hrest := ih fun s' hs' => hok s' (List.mem_cons_of_mem s0 hs')
    simp [registerLoop, hs0, hrest]

theorem insertAll_fresh (sess : Nat) (l : List Service) :
    ∀ (m : List (String × Nat)),
      (∀ s ∈ l, mapGet m s.serviceId.spec = none) →
      (l.map fun s => s.serviceId.spec).Nodup →
      insertAll m l sess = m ++ l.map fun s => (s.serviceId.spec, sess) := by
  induction l with
  | nil => intro m _ _; simp [insertAll]
  | cons s rest ih =>
    intro m hfresh hnodup
    have hhead : mapGet m s.serviceId.spec = none :=
      hfresh s (List.mem_cons_self s rest)
    have hnodup' : (rest.map fun s => s.serviceId.spec).Nodup :=
      (List.nodup_cons.mp (by simpa using hnodup)).2
    have hnotin : s.serviceId.spec ∉ rest.map fun s' => s'.serviceId.spec :=
      (List.nodup_cons.mp (by simpa using hnodup)).1
    have hfresh' : ∀ s' ∈ rest,
        mapGet (m ++ [(s.serviceId.spec, sess)]) s'.serviceId.spec = none := by
      intro s' hs'
      have h1 : mapGet m s'.serviceId.spec = none :=
        hfresh s' (List.mem_cons_of_mem s hs')
      have hne : s.serviceId.spec ≠ s'.serviceId.spec := by
        intro he
        exact hnotin (he ▸ List.mem_map_of_mem (fun s'' => s''.serviceId.spec) hs')
      rw [mapGet_append_none _ _ _ h1]
      simp [mapGet, hne]
    calc insertAll m (s :: rest) sess
        = insertAll (mapInsert m s.serviceId.spec sess) rest sess := rfl
      _ = insertAll (m ++ [(s.serviceId.spec, sess)]) rest sess := by
          rw [mapInsert_fresh m _ _ hhead]
      _ = (m ++ [(s.serviceId.spec, sess)]) ++ rest.map fun s' => (s'.serviceId.spec, sess) :=
          ih _ hfresh' hnodup'
      _ = m ++ (s :: rest).map fun s' => (s'.serviceId.spec, sess) := by
          simp [List.append_assoc]

theorem deleteAll_restores (sess : Nat) (l : List Service) :
    ∀ (m : List (String × Nat)),
      (∀ s ∈ l, mapGet m s.serviceId.spec = none) →
      (l.map fun s => s.serviceId.spec).Nodup →
      deleteAll (m ++ l.map fun s => (s.serviceId.spec, sess)) l = m := by
  induction l with
  | nil => intro m _ _; simp [deleteAll]
  | cons s rest ih =>
    intro m hfresh hnodup
    have hhead : mapGet m s.serviceId.spec = none :=
      hfresh s (List.mem_cons_self s rest)
    have hnodup' : (rest.map fun s => s.serviceId.spec).Nodup :=
      (List.nodup_cons.mp (by simpa using hnodup)).2
    have hfresh' : ∀ s' ∈ rest, mapGet m s'.serviceId.spec = none :=
      fun s' hs' => hfresh s' (List.mem_cons_of_mem s hs')
    calc deleteAll (m ++ (s :: rest).map fun s' => (s'.serviceId.spec, sess)) (s :: rest)
        = deleteAll
            (mapDelete (m ++ (s.serviceId.spec, sess) ::
              rest.map fun s' => (s'.serviceId.spec, sess)) s.serviceId.spec) rest := rfl
      _ = deleteAll (m ++ rest.map fun s' => (s'.serviceId.spec, sess)) rest := by
          rw [mapDelete_append_head m _ _ _ hhead]
      _ = m := ih m hfresh' hnodup'

theorem mapGet_entries (sess : Nat) (l : List Service) (s0 : Service)
    (h : s0 ∈ l) :
    mapGet (l.map fun s => (s.serviceId.spec, sess)) s0.serviceId.spec = some sess := by
  induction l with
  | nil => cases h
  | cons s rest ih =>
    by_cases hk : s.serviceId.spec = s0.serviceId.spec
    · simp [mapGet, hk]
    · rcases List.mem_cons.mp h with rfl | hmem
      · exact absurd rfl hk
      · simp [mapGet, hk, ih hmem]

/-! Path lemmas for `handleConn`: how the trace looks on each control
path, under the hypotheses that select that path. -/

theorem capability_check_passes (p : Preamble) (vt : ValidToken)
    (hcap : p.services = [] ∨ vt.HasCapability "hzn:serve" = true) :
    ¬(p.services.length > 0 ∧ !vt.HasCapability "hzn:serve" = true) := by
  rcases hcap with h | h
  · simp [h]
  · simp [h]

theorem handleConn_success (env : ConnEnv) (hubId : ULID) (sess : Nat)
    (active : List (String × Nat)) (p : Preamble) (vt : ValidToken)
    (hfr : env.frOk = true) (hread : env.readResult = some (1, p))
    (hfw : env.fwOk = true) (hvt : env.validateToken p.token = some vt)
    (hcap : p.services = [] ∨ vt.HasCapability "hzn:serve" = true)
    (hreg : (registerLoop env hubId vt p.services).2 = true)
    (hwc : env.writeConfOk = true) (hy : env.yamuxOk = true) :
    handleConn env hubId sess active =
      { written := [⟨"connected", env.now⟩]
        addCalls := (registerLoop env hubId vt p.services).1
        removeCalls := p.services.map (mkServiceRequest hubId vt)
        removeResults := (p.services.map (mkServiceRequest hubId vt)).map env.removeServiceOk
        reachedActive := true
        mapAfterActive := insertAll active p.services sess
        mapFinal := deleteAll (insertAll active p.services sess) p.services } := by
  have hc := capability_check_passes p vt hcap
  simp [handleConn, hfr, hread, hfw, hvt, hc, hreg, hwc, hy]
  intro hlen
  rcases hcap with h | h
  · simp [h] at hlen
  · exact h

theorem handleConn_regFail (env : ConnEnv) (hubId : ULID) (sess : Nat)
    (active : List (String × Nat)) (p : Preamble) (vt : ValidToken)
    (hfr : env.frOk = true) (hread : env.readResult = some (1, p))
    (hfw : env.fwOk = true) (hvt : env.validateToken p.token = some vt)
    (hcap : p.services = [] ∨ vt.HasCapability "hzn:serve" = true)
    (hreg : (registerLoop env hubId vt p.services).2 = false) :
    handleConn env hubId sess active =
      { silentExit active with addCalls := (registerLoop env hubId vt p.services).1 } := by
  have hc := capability_check_passes p vt hcap
  simp [handleConn, hfr, hread, hfw, hvt, hc, hreg]
  intro hlen hcapf
  rcases hcap with h | h
  · simp [h] at hlen
  · simp [h] at hcapf

theorem handleConn_badToken (env : ConnEnv) (hubId : ULID) (sess : Nat)
    (active : List (String × Nat)) (p : Preamble)
    (hfr : env.frOk = true) (hread : env.readResult = some (1, p))
    (hfw : env.fwOk = true) (hvt : env.validateToken p.token = none) :
    handleConn env hubId sess active =
      { silentExit active with written := [⟨"bad-token", env.now⟩] } := by
  simp [handleConn, hfr, hread, hfw, hvt]

theorem handleConn_badCapability (env : ConnEnv) (hubId : ULID) (sess : Nat)
    (active : List (String × Nat)) (p : Preamble) (vt : ValidToken)
    (hfr : env.frOk = true) (hread : env.readResult = some (1, p))
    (hfw : env.fwOk = true) (hvt : env.validateToken p.token = some vt)
    (hsvc : p.services ≠ []) (hcap : vt.HasCapability "hzn:serve" = false) :
    handleConn env hubId sess active =
      { silentExit active with written := [⟨"bad-token-capability", env.now⟩] } := by
  have hlen : p.services.length > 0 := List.length_pos.mpr hsvc
  simp [handleConn, hfr, hread, hfw, hvt, hlen, hcap]

theorem handleConn_postRegExit (env : ConnEnv) (hubId : ULID) (sess : Nat)
    (active : List (String × Nat)) (p : Preamble) (vt : ValidToken)
    (hfr : env.frOk = true) (hread : env.readResult = some (1, p))
    (hfw : env.fwOk = true) (hvt : env.validateToken p.token = some vt)
    (hcap : p.services = [] ∨ vt.HasCapability "hzn:serve" = true)
    (hreg : (registerLoop env hubId vt p.services).2 = true)
    (hpost : env.writeConfOk = false ∨ env.yamuxOk = false) :
    handleConn env hubId sess active =
      { written := [⟨"connected", env.now⟩]
        addCalls := (registerLoop env hubId vt p.services).1
        removeCalls := p.services.map (mkServiceRequest hubId vt)
        removeResults := (p.services.map (mkServiceRequest hubId vt)).map env.removeServiceOk
        reachedActive := false
        mapAfterActive := active
        mapFinal := active } := by
  have hc := capability_check_passes p vt hcap
  have hside : 0 < p.services.length → vt.HasCapability "hzn:serve" = true := by
    intro hlen
    rcases hcap with h | h
    · simp [h] at hlen
    · exact h
  rcases hpost with hwc | hy
  · simp [handleConn, hfr, hread, hfw, hvt, hc, hreg, hwc]
    exact hside
  · cases hwc : env.writeConfOk
    · simp [handleConn, hfr, hread, hfw, hvt, hc, hreg, hwc]
      exact hside
    · simp [handleConn, hfr, hread, hfw, hvt, hc, hreg, hwc, hy]
      exact hside

/-- C1 counterexample: a tag-1 connection with a valid token carrying
`hzn:serve` and one advertised service, whose control-plane
registration fails. The claim's rule demands a Confirmation with
status `"connected"` ("connected otherwise"), but `handleConn` writes
no Confirmation frame at all on this connection. -/
theorem C1_regfail_counterexample :
    envRegFail.readResult = some (1, preambleAB) ∧
    envRegFail.validateToken preambleAB.token = some vtServe ∧
    vtServe.HasCapability "hzn:serve" = true ∧
    preambleAB.services ≠ [] ∧
    (handleConn envRegFail hub0 0 []).written = [] := by
  refine ⟨rfl, rfl, rfl, by decide, by decide⟩

/-- C1 (amended): for every inbound connection whose Preamble frame is
read with tag 1 (and whose frame writer is constructed), the
Confirmation written back is exactly determined: `"bad-token"` when
token validation fails; `"bad-token-capability"` when the token is
valid, the Preamble advertises one or more services, and the token
lacks the `hzn:serve` capability; `"connected"` otherwise provided
every advertised service registers successfully with the control
plane — in particular, with an empty services list the capability
check is skipped and a valid token yields `"connected"`; and when a
registration fails, no Confirmation is written at all. -/
theorem C1_confirmation_status (env : ConnEnv) (hubId : ULID) (sess : Nat)
    (active : List (String × Nat)) (p : Preamble)
    (hfr : env.frOk = true) (hread : env.readResult = some (1, p))
    (hfw : env.fwOk = true) :
    (env.validateToken p.token = none →
      (handleConn env hubId sess active).written = [⟨"bad-token", env.now⟩]) ∧
    (∀ vt, env.validateToken p.token = some vt →
      (p.services ≠ [] → vt.HasCapability "hzn:serve" = false →
        (handleConn env hubId sess active).written =
          [⟨"bad-token-capability", env.now⟩]) ∧
      ((p.services = [] ∨ vt.HasCapability "hzn:serve" = true) →
        ((registerLoop env hubId vt p.services).2 = true →
          (handleConn env hubId sess active).written = [⟨"connected", env.now⟩]) ∧
        ((registerLoop env hubId vt p.services).2 = false →
          (handleConn env hubId sess active).written = []))) := by
  refine ⟨?_, ?_⟩
  · intro hvt
    rw [handleConn_badToken env hubId sess active p hfr hread hfw hvt]
  · intro vt hvt
    refine ⟨?_, ?_⟩
    · intro hsvc hcap
      rw [handleConn_badCapability env hubId sess active p vt hfr hread hfw hvt hsvc hcap]
    · intro hcap
      refine ⟨?_, ?_⟩
      · intro hreg
        cases hwc : env.writeConfOk
        · rw [handleConn_postRegExit env hubId sess active p vt hfr hread hfw hvt hcap hreg
            (Or.inl hwc)]
        · cases hy : env.yamuxOk
          · rw [handleConn_postRegExit env hubId sess active p vt hfr hread hfw hvt hcap hreg
              (Or.inr hy)]
          · rw [handleConn_success env hubId sess active p vt hfr hread hfw hvt hcap hreg hwc hy]
      · intro hreg
        rw [handleConn_regFail env hubId sess active p vt hfr hread hfw hvt hcap hreg]
        simp [silentExit]

/-- C1 witness: the bad-token branch of `C1_confirmation_status`
evaluated on a concrete connection. -/
theorem C1_confirmation_status_witness :
    (handleConn envBadTok hub0 0 []).written = [⟨"bad-token", envBadTok.now⟩] :=
  (C1_confirmation_status envBadTok hub0 0 [] preambleAB rfl rfl rfl).1 rfl

/-- C2 counterexample: a successful handshake whose Preamble
advertises N = 2 services with the same service id leaves exactly 1
(not 2) new entry in the active-session map after `Active`. -/
theorem C2_duplicate_ids_counterexample :
    (handleConn envDup hub0 7 []).reachedActive = true ∧
    preambleDup.services.length = 2 ∧
    (handleConn envDup hub0 7 []).mapAfterActive.length = 1 := by
  refine ⟨by decide, by decide, by decide⟩

/-- C2 (amended): for every successful handshake whose Preamble
advertises N services with pairwise-distinct service ids none of
which is already present in the active-session map, exactly N new
entries (keyed by each service id) are present immediately after the
session becomes Active, all mapping to that connection's session; and
after the physical connection closes the map returns to its prior
state, so 0 of those entries remain. -/
theorem C2_active_map_lifecycle (env : ConnEnv) (hubId : ULID) (sess : Nat)
    (active : List (String × Nat)) (p : Preamble) (vt : ValidToken)
    (hfr : env.frOk = true) (hread : env.readResult = some (1, p))
    (hfw : env.fwOk = true) (hvt : env.validateToken p.token = some vt)
    (hcap : p.services = [] ∨ vt.HasCapability "hzn:serve" = true)
    (hreg : (registerLoop env hubId vt p.services).2 = true)
    (hwc : env.writeConfOk = true) (hy : env.yamuxOk = true)
    (hnodup : (p.services.map fun s => s.serviceId.spec).Nodup)
    (hfresh : ∀ s ∈ p.services, mapGet active s.serviceId.spec = none) :
    (handleConn env hubId sess active).reachedActive = true ∧
    (handleConn env hubId sess active).mapAfterActive =
      active ++ (p.services.map fun s => (s.serviceId.spec, sess)) ∧
    (handleConn env hubId sess active).mapAfterActive.length =
      active.length + p.services.length ∧
    (∀ s ∈ p.services,
      mapGet (handleConn env hubId sess active).mapAfterActive s.serviceId.spec =
        some sess) ∧
    (handleConn env hubId sess active).mapFinal = active ∧
    (∀ s ∈ p.services,
      mapGet (handleConn env hubId sess active).mapFinal s.serviceId.spec = none) := by
  rw [handleConn_success env hubId sess active p vt hfr hread hfw hvt hcap hreg hwc hy]
  dsimp only
  have hins := insertAll_fresh sess p.services active hfresh hnodup
  have hdel : deleteAll (insertAll active p.services sess) p.services = active := by
    rw [hins]
    exact deleteAll_restores sess p.services active hfresh hnodup
  refine ⟨rfl, hins, ?_, ?_, hdel, ?_⟩
  · rw [hins]
    simp
  · intro s hs
    rw [hins, mapGet_append_none active _ _ (hfresh s hs)]
    exact mapGet_entries sess p.services s hs
  · intro s hs
    rw [hdel]
    exact hfresh s hs

/-- C2 witness: `C2_active_map_lifecycle` evaluated on a successful
two-service handshake against an empty active map. -/
theorem C2_active_map_lifecycle_witness :
    (handleConn envOk hub0 3 []).mapAfterActive.length = 2 ∧
    (handleConn envOk hub0 3 []).mapFinal = [] := by
  have h := C2_active_map_lifecycle envOk hub0 3 [] preambleAB vtServe rfl rfl rfl rfl
    (Or.inr rfl) (by decide) rfl rfl (by decide) (by decide)
  exact ⟨by simpa [preambleAB] using h.2.2.1, by simpa using h.2.2.2.2.1⟩

/-- C3 (confirmed): for every session whose handshake completed
registration, the deferred teardown attempts a RemoveService call for
every advertised Service Descriptor, in Preamble insertion order,
whatever the outcomes `env.removeServiceOk` assigns to the individual
deregistrations — so a failure at service k never prevents the
attempts at k+1..N. -/
theorem C3_dereg_all_attempted (env : ConnEnv) (hubId : ULID) (sess : Nat)
    (active : List (String × Nat)) (p : Preamble) (vt : ValidToken)
    (hfr : env.frOk = true) (hread : env.readResult = some (1, p))
    (hfw : env.fwOk = true) (hvt : env.validateToken p.token = some vt)
    (hcap : p.services = [] ∨ vt.HasCapability "hzn:serve" = true)
    (hreg : (registerLoop env hubId vt p.services).2 = true) :
    (handleConn env hubId sess active).removeCalls =
      p.services.map (mkServiceRequest hubId vt) ∧
    (handleConn env hubId sess active).removeResults =
      (p.services.map (mkServiceRequest hubId vt)).map env.removeServiceOk := by
  cases hwc : env.writeConfOk
  · rw [handleConn_postRegExit env hubId sess active p vt hfr hread hfw hvt hcap hreg
      (Or.inl hwc)]
    exact ⟨rfl, rfl⟩
  · cases hy : env.yamuxOk
    · rw [handleConn_postRegExit env hubId sess active p vt hfr hread hfw hvt hcap hreg
        (Or.inr hy)]
      exact ⟨rfl, rfl⟩
    · rw [handleConn_success env hubId sess active p vt hfr hread hfw hvt hcap hreg hwc hy]
      exact ⟨rfl, rfl⟩

/-- C3 witness: a two-service session in which every RemoveService
call fails still attempts both deregistrations, in Preamble order. -/
theorem C3_dereg_all_attempted_witness :
    (handleConn envOk hub0 3 []).removeCalls =
      [mkServiceRequest hub0 vtServe svcA, mkServiceRequest hub0 vtServe svcB] ∧
    (handleConn envOk hub0 3 []).removeResults = [false, false] := by
  have h := C3_dereg_all_attempted envOk hub0 3 [] preambleAB vtServe rfl rfl rfl rfl
    (Or.inr rfl) (by decide)
  exact ⟨h.1.trans (by decide), h.2.trans (by decide)⟩

/-- C6 counterexample: a handshake that fails at service registration
(frame well-formed, tag 1, token valid and capable) closes the
connection with no Confirmation written — a non-protocol-level
failure path that sends no response, contradicting the claim that
every such failure is observed as a non-"connected" Confirmation. -/
theorem C6_regfail_counterexample :
    envRegFail.readResult = some (1, preambleAB) ∧
    (handleConn envRegFail hub0 0 []).reachedActive = false ∧
    (handleConn envRegFail hub0 0 []).written = [] := by
  refine ⟨rfl, by decide, by decide⟩

/-- C6 (amended): the remote peer observes a handshake rejection only
as a single Confirmation frame with a non-"connected" status
(`"bad-token"` for token-validation failure, `"bad-token-capability"`
for a missing `hzn:serve` capability with services advertised), except
for protocol-level errors (reader construction failure, malformed
frame, or a leading tag other than 1), frame-writer construction
failure, and service-registration failure, for which the connection
is closed abruptly with no response sent. -/
theorem C6_failure_observation (env : ConnEnv) (hubId : ULID) (sess : Nat)
    (active : List (String × Nat)) :
    (env.frOk = false → (handleConn env hubId sess active).written = []) ∧
    (env.readResult = none → (handleConn env hubId sess active).written = []) ∧
    (∀ tag p, env.readResult = some (tag, p) → tag ≠ 1 →
      (handleConn env hubId sess active).written = []) ∧
    (∀ p, env.readResult = some (1, p) → env.fwOk = false →
      (handleConn env hubId sess active).written = []) ∧
    (∀ p, env.frOk = true → env.readResult = some (1, p) → env.fwOk = true →
      (env.validateToken p.token = none →
        (handleConn env hubId sess active).written = [⟨"bad-token", env.now⟩] ∧
        (handleConn env hubId sess active).reachedActive = false) ∧
      (∀ vt, env.validateToken p.token = some vt →
        (p.services ≠ [] → vt.HasCapability "hzn:serve" = false →
          (handleConn env hubId sess active).written =
            [⟨"bad-token-capability", env.now⟩] ∧
          (handleConn env hubId sess active).reachedActive = false) ∧
        ((p.services = [] ∨ vt.HasCapability "hzn:serve" = true) →
          (registerLoop env hubId vt p.services).2 = false →
          (handleConn env hubId sess active).written = [] ∧
          (handleConn env hubId sess active).reachedActive = false))) := by
  refine ⟨?_, ?_, ?_, ?_, ?_⟩
  · intro hfr
    simp [handleConn, hfr, silentExit]
  · intro hread
    cases hfr : env.frOk
    · simp [handleConn, hfr, silentExit]
    · simp [handleConn, hfr, hread, silentExit]
  · intro tag p hread htag
    cases hfr : env.frOk
    · simp [handleConn, hfr, silentExit]
    · simp [handleConn, hfr, hread, htag, silentExit]
  · intro p hread hfw
    cases hfr : env.frOk
    · simp [handleConn, hfr, silentExit]
    · simp [handleConn, hfr, hread, hfw, silentExit]
  · intro p hfr hread hfw
    refine ⟨?_, ?_⟩
    · intro hvt
      rw [handleConn_badToken env hubId sess active p hfr hread hfw hvt]
      exact ⟨rfl, rfl⟩
    · intro vt hvt
      refine ⟨?_, ?_⟩
      · intro hsvc hcap
        rw [handleConn_badCapability env hubId sess active p vt hfr hread hfw hvt hsvc hcap]
        exact ⟨rfl, rfl⟩
      · intro hcap hreg
        rw [handleConn_regFail env hubId sess active p vt hfr hread hfw hvt hcap hreg]
        exact ⟨rfl, rfl⟩

/-- C6 witness: a capability rejection observed as exactly one
`"bad-token-capability"` Confirmation. -/
theorem C6_failure_observation_witness :
    (handleConn envNoCap hub0 0 []).written =
      [⟨"bad-token-capability", envNoCap.now⟩] ∧
    (handleConn envNoCap hub0 0 []).reachedActive = false :=
  (((C6_failure_observation envNoCap hub0 0 []).2.2.2.2 preambleAB rfl rfl rfl).2
    vtNoServe rfl).1 (by decide) rfl

/-- C7 (confirmed): when the Preamble advertises services and the
control-plane registration of service `s` fails after the services of
`l1` registered successfully, the handshake is aborted: exactly the
requests for `l1` and `s` were attempted (in Preamble order, no
retry), no Confirmation is written, the session never reaches Active,
the active-session map is untouched, and no RemoveService call is
made. -/
theorem C7_registration_abort (env : ConnEnv) (hubId : ULID) (sess : Nat)
    (active : List (String × Nat)) (p : Preamble) (vt : ValidToken)
    (l1 : List Service) (s : Service) (l2 : List Service)
    (hfr : env.frOk = true) (hread : env.readResult = some (1, p))
    (hfw : env.fwOk = true) (hvt : env.validateToken p.token = some vt)
    (hcap : vt.HasCapability "hzn:serve" = true)
    (hsplit : p.services = l1 ++ s :: l2)
    (hok : ∀ s' ∈ l1, env.addServiceOk (mkServiceRequest hubId vt s') = true)
    (hfail : env.addServiceOk (mkServiceRequest hubId vt s) = false) :
    (handleConn env hubId sess active).addCalls =
      (l1 ++ [s]).map (mkServiceRequest hubId vt) ∧
    (handleConn env hubId sess active).written = [] ∧
    (handleConn env hubId sess active).reachedActive = false ∧
    (handleConn env hubId sess active).mapAfterActive = active ∧
    (handleConn env hubId sess active).mapFinal = active ∧
    (handleConn env hubId sess active).removeCalls = [] := by
  have hregeq := registerLoop_fail env hubId vt l1 s l2 hok hfail
  have hreg2 : (registerLoop env hubId vt p.services).2 = false := by
    rw [hsplit, hregeq]
  rw [handleConn_regFail env hubId sess active p vt hfr hread hfw hvt (Or.inr hcap) hreg2]
  refine ⟨?_, rfl, rfl, rfl, rfl, rfl⟩
  show (registerLoop env hubId vt p.services).1 = _
  rw [hsplit, hregeq]

/-- C7 witness: registration fails on the second of two advertised
services; both requests were attempted, nothing was written back, and
the map is untouched. -/
theorem C7_registration_abort_witness :
    (handleConn envFailSecond hub0 0 []).addCalls =
      [mkServiceRequest hub0 vtServe svcA, mkServiceRequest hub0 vtServe svcB] ∧
    (handleConn envFailSecond hub0 0 []).written = [] ∧
    (handleConn envFailSecond hub0 0 []).mapFinal = [] := by
  have h := C7_registration_abort envFailSecond hub0 0 [] preambleAB vtServe
    [svcA] svcB [] rfl rfl rfl rfl (by decide) rfl (by decide) (by decide)
  exact ⟨h.1.trans (by decide), h.2.1, h.2.2.2.2.1⟩

end hub

namespace control

/-! Helper lemmas for the Broadcaster and the connection pool. -/

theorem advertiseLoop_spec (conn : String → Except String HubServicesClient)
    (targets : List String) :
    advertiseLoop conn targets =
      (targets.filter (connOk conn), targets.filterMap (targetErr conn)) := by
  induction targets with
  | nil => rfl
  | cons t rest ih =>
    cases hc : conn t with
    | error e =>
      simp [advertiseLoop, hc, ih, List.filter_cons, List.filterMap_cons, connOk, targetErr]
    | ok c =>
      cases hr : c.addServicesResult with
      | none =>
        simp [advertiseLoop, hc, hr, ih, List.filter_cons, List.filterMap_cons,
          connOk, targetErr]
      | some e =>
        simp [advertiseLoop, hc, hr, ih, List.filter_cons, List.filterMap_cons,
          connOk, targetErr]

/-- C4 (confirmed): `AdvertiseServices` fetches the catalog's targets
and attempts every one of them — the targets whose remote
`AddServices` call is made are exactly those whose dial succeeded,
independent of any other target's failure; each per-target failure
(dial or remote-call) is accumulated, in iteration order, into the
aggregate error; the aggregate is `none` (nil) iff every target
succeeded, and when it is non-nil it holds exactly the accumulated
per-target errors. -/
theorem C4_broadcast_all_targets (targets : List String)
    (conn : String → Except String HubServicesClient) :
    (AdvertiseServices targets conn).1 = targets ∧
    (AdvertiseServices targets conn).2.1 = targets.filter (connOk conn) ∧
    ((AdvertiseServices targets conn).2.2 = none ↔
      ∀ t ∈ targets, targetErr conn t = none) ∧
    (∀ errs, (AdvertiseServices targets conn).2.2 = some errs →
      errs = targets.filterMap (targetErr conn)) := by
  have h := advertiseLoop_spec conn targets
  refine ⟨rfl, ?_, ?_, ?_⟩
  · simp [AdvertiseServices, h]
  · by_cases hnil : targets.filterMap (targetErr conn) = []
    · simp [AdvertiseServices, h, hnil]
      exact List.filterMap_eq_nil_iff.mp hnil
    · have heq : (AdvertiseServices targets conn).2.2 =
          some (targets.filterMap (targetErr conn)) := by
        simp [AdvertiseServices, h, hnil]
      rw [heq]
      constructor
      · intro hcontra
        cases hcontra
      · intro hall
        exact absurd (List.filterMap_eq_nil_iff.mpr hall) hnil
  · intro errs herrs
    by_cases hnil : targets.filterMap (targetErr conn) = []
    · simp [AdvertiseServices, h, hnil] at herrs
    · simp [AdvertiseServices, h, hnil] at herrs
      exact herrs.symm

/-- C4 witness: three targets where dialing the second fails — the
other two still receive the `AddServices` call and the aggregate
error is the second target's dial error. -/
theorem C4_broadcast_all_targets_witness :
    (AdvertiseServices ["a", "b", "c"] connW).2.1 = ["a", "c"] ∧
    (AdvertiseServices ["a", "b", "c"] connW).2.2 = some ["dial b failed"] := by
  have h := C4_broadcast_all_targets ["a", "b", "c"] connW
  exact ⟨h.2.1.trans (by decide), by decide⟩

theorem step_preserves (s : PoolSt) (a : Step) (h : PoolInv s) :
    PoolInv (step s a) := by
  obtain ⟨hnone, hsome⟩ := h
  cases a with
  | read p =>
    cases hp : s.procs[p]? with
    | none =>
      have heq : step s (Step.read p) = s := by simp [step, hp]
      rw [heq]
      exact ⟨hnone, hsome⟩
    | some st =>
      cases st with
      | start =>
        cases hc : s.conn with
        | none =>
          have heq : step s (Step.read p) =
              { s with procs := s.procs.set p .missed } := by
            simp [step, hp, hc]
          rw [heq]
          refine ⟨fun _ => ⟨(hnone hc).1, ?_⟩, fun c hcc => ?_⟩
          · intro st' hst'
            rcases List.mem_or_eq_of_mem_set hst' with hmem | rfl
            · exact (hnone hc).2 st' hmem
            · rfl
          · exact absurd (hc.symm.trans hcc) (by simp)
        | some c =>
          have heq : step s (Step.read p) =
              { s with procs := s.procs.set p (.done c) } := by
            simp [step, hp, hc]
          rw [heq]
          refine ⟨fun hcc => absurd (hc.symm.trans hcc) (by simp), fun c' hcc => ?_⟩
          have hcc' : c = c' := Option.some.inj (hc.symm.trans hcc)
          subst hcc'
          refine ⟨(hsome c hc).1, ?_⟩
          intro st' hst' r hr
          rcases List.mem_or_eq_of_mem_set hst' with hmem | rfl
          · exact (hsome c hc).2 st' hmem r hr
          · exact (ProcState.done.inj hr).symm
      | missed =>
        have heq : step s (Step.read p) = s := by simp [step, hp]
        rw [heq]
        exact ⟨hnone, hsome⟩
      | done r =>
        have heq : step s (Step.read p) = s := by simp [step, hp]
        rw [heq]
        exact ⟨hnone, hsome⟩
  | write p =>
    cases hp : s.procs[p]? with
    | none =>
      have heq : step s (Step.write p) = s := by simp [step, hp]
      rw [heq]
      exact ⟨hnone, hsome⟩
    | some st =>
      cases st with
      | start =>
        have heq : step s (Step.write p) = s := by simp [step, hp]
        rw [heq]
        exact ⟨hnone, hsome⟩
      | missed =>
        cases hc : s.conn with
        | none =>
          have heq : step s (Step.write p) =
              { s with
                conn := some s.nextId
                created := s.created ++ [s.nextId]
                nextId := s.nextId + 1
                procs := s.procs.set p (.done s.nextId) } := by
            simp [step, hp, hc]
          rw [heq]
          refine ⟨fun hcc => Option.noConfusion hcc, fun c' hcc => ?_⟩
          have hcc' : s.nextId = c' := Option.some.inj hcc
          subst hcc'
          refine ⟨?_, ?_⟩
          · show s.created ++ [s.nextId] = [s.nextId]
            rw [(hnone hc).1]
            rfl
          · intro st' hst' r hr
            rcases List.mem_or_eq_of_mem_set hst' with hmem | rfl
            · have hfalse := (hnone hc).2 st' hmem
              rw [hr] at hfalse
              simp [ProcState.isDone] at hfalse
            · exact (ProcState.done.inj hr).symm
        | some c =>
          have heq : step s (Step.write p) =
              { s with procs := s.procs.set p (.done c) } := by
            simp [step, hp, hc]
          rw [heq]
          refine ⟨fun hcc => absurd (hc.symm.trans hcc) (by simp), fun c' hcc => ?_⟩
          have hcc' : c = c' := Option.some.inj (hc.symm.trans hcc)
          subst hcc'
          refine ⟨(hsome c hc).1, ?_⟩
          intro st' hst' r hr
          rcases List.mem_or_eq_of_mem_set hst' with hmem | rfl
          · exact (hsome c hc).2 st' hmem r hr
          · exact (ProcState.done.inj hr).symm
      | done r =>
        have heq : step s (Step.write p) = s := by simp [step, hp]
        rw [heq]
        exact ⟨hnone, hsome⟩

theorem run_preserves (sched : List Step) :
    ∀ s, PoolInv s → PoolInv (run s sched) := by
  induction sched with
  | nil => intro s h; exact h
  | cons a rest ih =>
    intro s h
    exact ih (step s a) (step_preserves s a h)

theorem initPool_inv (n : Nat) : PoolInv (initPool n) := by
  constructor
  · intro _
    refine ⟨rfl, ?_⟩
    intro st hst
    rw [List.eq_of_mem_replicate hst]
    rfl
  · intro c hc
    cases hc

theorem step_procs_length (s : PoolSt) (a : Step) :
    (step s a).procs.length = s.procs.length := by
  cases a with
  | read p =>
    cases hp : s.procs[p]? with
    | none => simp [step, hp]
    | some st =>
      cases st with
      | start => cases hc : s.conn <;> simp [step, hp, hc]
      | missed => simp [step, hp]
      | done r => simp [step, hp]
  | write p =>
    cases hp : s.procs[p]? with
    | none => simp [step, hp]
    | some st =>
      cases st with
      | start => simp [step, hp]
      | missed => cases hc : s.conn <;> simp [step, hp, hc]
      | done r => simp [step, hp]

theorem run_procs_length (sched : List Step) :
    ∀ s : PoolSt, (run s sched).procs.length = s.procs.length := by
  induction sched with
  | nil => intro s; rfl
  | cons a rest ih =>
    intro s
    exact (ih (step s a)).trans (step_procs_length s a)

/-- C8 (confirmed): under any interleaving of concurrent first-time
`Dial` callers for one target (each caller being an atomic read-locked
lookup followed, on a miss, by the atomic write-locked re-check /
dial / insert section), the pool never creates more than one
underlying connection; and whenever at least one caller exists and
every caller has finished, exactly one connection was created, it is
the cached one, and every caller's client wraps exactly it. -/
theorem C8_single_connection (n : Nat) (sched : List Step) :
    (run (initPool n) sched).created.length ≤ 1 ∧
    (0 < n →
      (∀ st ∈ (run (initPool n) sched).procs, st.isDone = true) →
      ∃ c, (run (initPool n) sched).created = [c] ∧
        (run (initPool n) sched).conn = some c ∧
        ∀ st ∈ (run (initPool n) sched).procs, st = ProcState.done c) := by
  obtain ⟨hnone, hsome⟩ := run_preserves sched (initPool n) (initPool_inv n)
  constructor
  · cases hc : (run (initPool n) sched).conn with
    | none => simp [(hnone hc).1]
    | some c => simp [(hsome c hc).1]
  · intro hn hdone
    have hlen : (run (initPool n) sched).procs.length = n := by
      rw [run_procs_length]
      simp [initPool]
    have hne : (run (initPool n) sched).procs ≠ [] := by
      intro h0
      rw [h0] at hlen
      simp at hlen
      omega
    obtain ⟨st0, hst0⟩ := List.exists_mem_of_ne_nil _ hne
    have hd0 := hdone st0 hst0
    cases st0 with
    | start => simp [ProcState.isDone] at hd0
    | missed => simp [ProcState.isDone] at hd0
    | done r =>
      cases hc : (run (initPool n) sched).conn with
      | none =>
        have hfalse := (hnone hc).2 (ProcState.done r) hst0
        simp [ProcState.isDone] at hfalse
      | some c =>
        refine ⟨c, (hsome c hc).1, rfl, ?_⟩
        intro st hst
        have hd := hdone st hst
        cases st with
        | start => simp [ProcState.isDone] at hd
        | missed => simp [ProcState.isDone] at hd
        | done r' =>
          rw [(hsome c hc).2 (ProcState.done r') hst r' rfl]

/-- C8 witness: three interleaved callers racing on a cold pool end up
sharing the single created connection. -/
theorem C8_single_connection_witness :
    ∃ c, (run (initPool 3) schedW).created = [c] ∧
      (run (initPool 3) schedW).conn = some c ∧
      ∀ st ∈ (run (initPool 3) schedW).procs, st = ProcState.done c :=
  (C8_single_connection 3 schedW).2 (by decide) (by decide)

/-- C9 (confirmed): a `Dial` that misses the cache and fails to
establish the new outbound connection returns that error synchronously
and leaves the pool exactly as it was — the failure is not cached —
so a later `Dial` for the same target dials afresh and, on success,
caches and returns the new connection. -/
theorem C9_dial_failure_not_cached (g : GRPCDial) (target : String)
    (e : String) (cc : Nat)
    (hmiss : mapGet g.grpcConns target = none) :
    Dial g (.error e) target = (.error e, g) ∧
    (Dial g (.ok cc) target).1 = .ok cc ∧
    mapGet ((Dial g (.ok cc) target).2).grpcConns target = some cc := by
  refine ⟨?_, ?_, ?_⟩ <;> simp [Dial, hmiss, mapGet_mapInsert_self]

/-- C9 witness: a refused dial on an empty pool, then a successful
retry for the same target. -/
theorem C9_dial_failure_not_cached_witness :
    Dial g0 (.error "connection refused") "addr:1234" =
      (.error "connection refused", g0) ∧
    (Dial g0 (.ok 42) "addr:1234").1 = .ok 42 ∧
    mapGet ((Dial g0 (.ok 42) "addr:1234").2).grpcConns "addr:1234" = some 42 :=
  C9_dial_failure_not_cached g0 "addr:1234" "connection refused" 42 rfl

end control

namespace inbound

/-- C5 counterexample: a multiple-valued `authorization` metadata
entry is NOT rejected — its first value is validated and, being a
valid CONTROL token, the call is accepted and proceeds to the
mutation, contradicting the claim that multiple-valued entries are
rejected as a bad-token error. -/
theorem C5_multivalue_counterexample :
    (mdLookup [("authorization", ["good", "stray"])] "authorization").length = 2 ∧
    checkValidToken envMulti = none ∧
    AddServices envMulti = (none, true) := by
  refine ⟨by decide, by decide, by decide⟩

/-- C5 (amended): an absent metadata context and an absent or empty
`authorization` entry are rejected uniformly as the same
`ErrBadControlToken`, without distinguishing the cases to the caller;
a multiple-valued `authorization` entry is not rejected — its first
value alone is used as the token, whatever the remaining values are;
and every call whose token is missing, invalid, or carries a role
other than CONTROL fails before any mutation is performed, for
`AddServices` and `AddLabeLink` alike. -/
theorem C5_authorization_check (env : CtrlEnv) :
    (env.incomingMD = none →
      checkValidToken env = some TokenCheckError.badControlToken) ∧
    (∀ md, env.incomingMD = some md → mdLookup md "authorization" = [] →
      checkValidToken env = some TokenCheckError.badControlToken) ∧
    (∀ md a rest, env.incomingMD = some md →
      mdLookup md "authorization" = a :: rest →
      checkValidToken env =
        (match env.checkToken a with
         | .error e => some (TokenCheckError.invalidToken e)
         | .ok tok =>
           if tok.body.role = Role.CONTROL then none
           else some (TokenCheckError.badRole tok.body.role))) ∧
    (∀ e, checkValidToken env = some e →
      AddServices env = (some (CallError.auth e), false) ∧
      AddLabeLink env = (some (CallError.auth e), false)) := by
  refine ⟨?_, ?_, ?_, ?_⟩
  · intro hmd
    simp [checkValidToken, hmd]
  · intro md hmd hauth
    simp [checkValidToken, hmd, hauth]
  · intro md a rest hmd hauth
    simp [checkValidToken, hmd, hauth]
  · intro e he
    exact ⟨by simp [AddServices, he], by simp [AddLabeLink, he]⟩

/-- C5 witness: a valid token of role AGENT is rejected with the
wrapped bad-token error and the mutation is never invoked. -/
theorem C5_authorization_check_witness :
    checkValidToken envAgent = some (TokenCheckError.badRole Role.AGENT) ∧
    AddServices envAgent =
      (some (CallError.auth (TokenCheckError.badRole Role.AGENT)), false) := by
  have h := C5_authorization_check envAgent
  have h3 := h.2.2.1 [("authorization", ["agent"])] "agent" [] rfl rfl
  have hc : checkValidToken envAgent = some (TokenCheckError.badRole Role.AGENT) :=
    h3.trans (by decide)
  exact ⟨hc, (h.2.2.2 _ hc).1⟩

/-- C10 (confirmed): when the token check succeeds, `AddLabeLink`
invokes the `AddRecentLabelLinks` mutation but returns a nil error to
the caller even when that mutation fails — its error is discarded, so
a remote caller cannot observe the lost update — whereas `AddServices`
propagates its mutation's error alongside the `Noop`. -/
theorem C10_labellink_error_discarded (env : CtrlEnv)
    (h : checkValidToken env = none) :
    AddLabeLink env = (none, true) ∧
    AddServices env = (env.addRecentAccountServicesErr.map CallError.mutation, true) ∧
    (∀ e, env.addRecentLabelLinksErr = some e → (AddLabeLink env).1 = none) ∧
    (∀ e, env.addRecentAccountServicesErr = some e →
      (AddServices env).1 = some (CallError.mutation e)) := by
  refine ⟨by simp [AddLabeLink, h], by simp [AddServices, h], ?_, ?_⟩
  · intro e _
    simp [AddLabeLink, h]
  · intro e he
    simp [AddServices, h, he]

/-- C10 witness: with a valid CONTROL token and both mutations
failing, `AddLabeLink` still reports success while `AddServices`
reports its mutation error. -/
theorem C10_labellink_error_discarded_witness :
    AddLabeLink envGood = (none, true) ∧
    (AddServices envGood).1 = some (CallError.mutation "store down") :=
  have h := C10_labellink_error_discarded envGood (by decide)
  ⟨h.1, h.2.2.2 "store down" rfl⟩

end inbound

end Horizon
